import Mathlib

/-!
Shallow embedding of the raycasting engine (caster.rs, maze.rs,
sprite_manager.rs) of the proyecto1_raycasting repository, with theorems
settling the specification claims about it.

Rust `f32` values are modelled as rationals (ℚ); `usize`/`u32` as ℕ with the
relevant casts made explicit; mazes as `List (List Char)`.  The ray angle's
cosine and sine are passed as the two rationals `cosA`, `sinA` (the source
computes them once from `angle` before the march and only ever uses the pair).
-/

namespace Raycast

/-- `WallSide` enum from caster.rs. -/
inductive WallSide where
  | North
  | South
  | East
  | West
deriving DecidableEq, Repr

/-- `Intersect` struct from caster.rs. -/
structure Intersect where
  distance : ℚ
  impact : Char
  texture_x : ℚ
  texture_y : ℚ
  side : WallSide
deriving DecidableEq, Repr

/-- `MAX_DISTANCE` constant (1000.0). -/
def MAX_DISTANCE : ℚ := 1000

/-- `STEP_SIZE` constant (1.5). -/
def STEP_SIZE : ℚ := 3 / 2

/-- `MAX_ITERATIONS` constant (400). -/
def MAX_ITERATIONS : ℕ := 400

/-- `create_default_intersect` from caster.rs. -/
def create_default_intersect : Intersect :=
  { distance := MAX_DISTANCE, impact := '#', texture_x := 0, texture_y := 0,
    side := WallSide.North }

/-- `create_wall_intersect` from caster.rs. -/
def create_wall_intersect (distance : ℚ) : Intersect :=
  { distance := distance, impact := '#', texture_x := 0, texture_y := 0,
    side := WallSide.North }

/-- `is_wall_cell` from caster.rs. -/
def is_wall_cell (cell : Char) : Bool :=
  cell = '#' || cell = '+' || cell = '-' || cell = '|' ||
  cell = 'r' || cell = 'b' || cell = 'g'

/-- Rust `Iterator::min_by` with a total comparator on the first component:
fold keeping the accumulator unless the next element is strictly smaller
(so on ties the earlier element wins). -/
def min_by_first (l : List (ℚ × WallSide)) : Option (ℚ × WallSide) :=
  l.foldl
    (fun acc p =>
      match acc with
      | none => some p
      | some a => if p.1 < a.1 then some p else some a)
    none

/-- `determine_wall_side` from caster.rs: minimum of the four margins over the
array `[(u, West), (1-u, East), (v, North), (1-v, South)]`. -/
def determine_wall_side (norm_x norm_y : ℚ) : WallSide :=
  let distances : List (ℚ × WallSide) :=
    [(norm_x, WallSide.West), (1 - norm_x, WallSide.East),
     (norm_y, WallSide.North), (1 - norm_y, WallSide.South)]
  ((min_by_first distances).map Prod.snd).getD WallSide.North

/-- `calculate_texture_coordinates` from caster.rs. -/
def calculate_texture_coordinates (side : WallSide) (norm_x norm_y : ℚ) :
    ℚ × ℚ :=
  match side with
  | WallSide.North | WallSide.South => (norm_x, norm_y)
  | WallSide.East | WallSide.West => (norm_y, norm_x)

/-- Rust `f32::clamp(lo, hi)` on rationals. -/
def clampQ (x lo hi : ℚ) : ℚ := max lo (min x hi)

/-- Rust `f32 as usize` for a non-negative finite value: truncation. -/
def ratToUsize (q : ℚ) : ℕ := (⌊q⌋).toNat

/-- Rust `%` on non-negative `f32` with positive divisor:
`x - y * trunc (x / y)` which is `x - y * ⌊x / y⌋` here. -/
def fRem (x y : ℚ) : ℚ := x - y * (⌊x / y⌋ : ℤ)

/-- The `for _ in 0..MAX_ITERATIONS` march of `cast_ray_textured`
(caster.rs lines 50-97), fuelled by the remaining iteration count.
Returns the intersect together with the number of loop iterations whose body
ran to an effectful point (0 when the `distance > MAX_DISTANCE` break fires
at once). -/
def castLoop (maze : List (List Char)) (mazeHeight mazeWidth : ℕ)
    (posX posY cosA sinA : ℚ) (blockSize : ℕ) :
    ℕ → ℚ → Intersect × ℕ
  | 0, _ => (create_default_intersect, 0)
  | fuel + 1, distance =>
    if MAX_DISTANCE < distance then (create_default_intersect, 0)
    else
      let rayX := posX + distance * cosA
      let rayY := posY + distance * sinA
      if rayX < 0 ∨ rayY < 0 then (create_wall_intersect distance, 1)
      else
        let gridX := ratToUsize (rayX / (blockSize : ℚ))
        let gridY := ratToUsize (rayY / (blockSize : ℚ))
        if mazeHeight ≤ gridY ∨ mazeWidth ≤ gridX then
          (create_wall_intersect distance, 1)
        else
          let currentCell := ((maze[gridY]?).bind
            fun row => row[gridX]?).getD '#'
          if is_wall_cell currentCell then
            let cellX := fRem rayX (blockSize : ℚ)
            let cellY := fRem rayY (blockSize : ℚ)
            let normX := clampQ (cellX / (blockSize : ℚ)) 0 1
            let normY := clampQ (cellY / (blockSize : ℚ)) 0 1
            let side := determine_wall_side normX normY
            let tc := calculate_texture_coordinates side normX normY
            ({ distance := distance, impact := currentCell,
               texture_x := clampQ tc.1 0 1, texture_y := clampQ tc.2 0 1,
               side := side }, 1)
          else
            let r := castLoop maze mazeHeight mazeWidth posX posY cosA sinA
              blockSize fuel (distance + STEP_SIZE)
            (r.1, r.2 + 1)

/-- `cast_ray_textured` from caster.rs, together with the iteration count of
its march loop (`maze_height`/`maze_width` inlined at their use sites). -/
def cast_ray_textured_full (maze : List (List Char))
    (posX posY cosA sinA : ℚ) (blockSize : ℕ) : Intersect × ℕ :=
  if maze.isEmpty then (create_default_intersect, 0)
  else if ((maze[0]?).map List.length).getD 0 = 0 then
    (create_default_intersect, 0)
  else
    castLoop maze maze.length (((maze[0]?).map List.length).getD 0)
      posX posY cosA sinA blockSize MAX_ITERATIONS STEP_SIZE

/-- `cast_ray_textured` from caster.rs (the returned `Intersect`). -/
def cast_ray_textured (maze : List (List Char))
    (posX posY cosA sinA : ℚ) (blockSize : ℕ) : Intersect :=
  (cast_ray_textured_full maze posX posY cosA sinA blockSize).1

/-- Spec-side restatement of wall-side selection, written from the spec's
words: compare the four margins `u`, `1-u`, `v`, `1-v`, pick the side with
the smallest margin, ties broken by the fixed order West, East, North,
South (each side is chosen exactly when its margin is ≤ every later margin
and no earlier side was chosen). -/
def wall_side_spec (u v : ℚ) : WallSide :=
  if u ≤ 1 - u ∧ u ≤ v ∧ u ≤ 1 - v then WallSide.West
  else if 1 - u ≤ v ∧ 1 - u ≤ 1 - v then WallSide.East
  else if v ≤ 1 - v then WallSide.North
  else WallSide.South

/-- `calculate_distance_attenuation` from caster.rs. -/
def calculate_distance_attenuation (distance : ℚ) : ℚ :=
  let max_distance : ℚ := 600
  let min_brightness : ℚ := 3 / 10
  let att := min (distance / max_distance) (4 / 5)
  max (1 - att * (7 / 10)) min_brightness

/-- `create_default_maze` from maze.rs: the built-in maze substituted when
the maze file is missing or unreadable. -/
def create_default_maze : List (List Char) :=
  ["################".toList,
   "#              #".toList,
   "# ############ #".toList,
   "#              #".toList,
   "# ####### # # ###".toList,
   "# #     # # #   #".toList,
   "# # ### # # ### #".toList,
   "# #   # # #   # #".toList,
   "# ### # # ### # #".toList,
   "# #k  # #   # # #".toList,
   "# ##### ### # # #".toList,
   "#           # # #".toList,
   "############# # #".toList,
   "#             # #".toList,
   "#           l  ##".toList,
   "##############e##".toList]

/-- `load_maze` from maze.rs, with the file system abstracted: `some lines`
models `File::open` succeeding and the reader yielding those lines (each
`line.unwrap_or_default()` already applied), `none` models a missing or
unreadable file. -/
def load_maze (file : Option (List String)) : List (List Char) :=
  match file with
  | some lines =>
    let maze := lines.map String.toList
    match (maze.map List.length).max? with
    | some max_width =>
      maze.map fun row => row ++ List.replicate (max_width - row.length) ' '
    | none => maze
  | none => create_default_maze

/-- The row-length invariant of the claim: every row of the maze has the
same length as the first row. -/
def uniform_row_length (m : List (List Char)) : Bool :=
  m.all fun row => row.length = (m.headD []).length

/-- Number of occurrences of the symbol `c` among all cells of the maze. -/
def maze_count (m : List (List Char)) (c : Char) : ℕ :=
  (m.map fun row => row.count c).sum

/-- `SpriteType` enum from sprite_manager.rs. -/
inductive SpriteType where
  | KeyGold
  | Checkpoint
  | ExitPortal
  | ExtraLife
  | TrapSpike
deriving DecidableEq, Repr

/-- `SpriteType::from_char` from sprite_manager.rs. -/
def SpriteType.from_char (c : Char) : Option SpriteType :=
  if c = 'k' then some SpriteType.KeyGold
  else if c = 'c' then some SpriteType.Checkpoint
  else if c = 'e' then some SpriteType.ExitPortal
  else if c = 'l' then some SpriteType.ExtraLife
  else if c = 't' then some SpriteType.TrapSpike
  else none

/-- The maze symbol of each interactive sprite type (the match arms of
`from_char`, read back). -/
def SpriteType.symbol : SpriteType → Char
  | SpriteType.KeyGold => 'k'
  | SpriteType.Checkpoint => 'c'
  | SpriteType.ExitPortal => 'e'
  | SpriteType.ExtraLife => 'l'
  | SpriteType.TrapSpike => 't'

/-- `SpriteType::get_base_scale` from sprite_manager.rs. -/
def SpriteType.get_base_scale : SpriteType → ℚ
  | SpriteType.KeyGold => 4 / 5
  | SpriteType.Checkpoint => 6 / 5
  | SpriteType.ExitPortal => 3 / 2
  | SpriteType.ExtraLife => 9 / 10
  | SpriteType.TrapSpike => 1

/-- `Sprite` struct from sprite_manager.rs. -/
structure Sprite where
  sprite_type : SpriteType
  world_x : ℚ
  world_y : ℚ
  scale : ℚ
  rotation : ℚ
  active : Bool
  animation_time : ℚ
deriving DecidableEq, Repr

/-- `Sprite::new` from sprite_manager.rs. -/
def Sprite.new (sprite_type : SpriteType) (world_x world_y : ℚ) : Sprite :=
  { sprite_type := sprite_type, world_x := world_x, world_y := world_y,
    scale := sprite_type.get_base_scale, rotation := 0, active := true,
    animation_time := 0 }

/-- Inner loop of `SpriteManager::load_sprites_from_maze`: scan one row,
`col` being the enumeration index of the current cell; for each interactive
symbol push one sprite centred in its cell. -/
def sprites_in_row (block_size : ℕ) (row_idx : ℕ) :
    ℕ → List Char → List Sprite
  | _, [] => []
  | col, cell :: rest =>
    match SpriteType.from_char cell with
    | some t =>
      Sprite.new t ((col : ℚ) * (block_size : ℚ) + (block_size : ℚ) / 2)
          ((row_idx : ℚ) * (block_size : ℚ) + (block_size : ℚ) / 2) ::
        sprites_in_row block_size row_idx (col + 1) rest
    | none => sprites_in_row block_size row_idx (col + 1) rest

/-- Outer loop of `SpriteManager::load_sprites_from_maze` over the
enumerated rows. -/
def sprites_in_rows (block_size : ℕ) : ℕ → List (List Char) → List Sprite
  | _, [] => []
  | row_idx, row :: rest =>
    sprites_in_row block_size row_idx 0 row ++
      sprites_in_rows block_size (row_idx + 1) rest

/-- `SpriteManager::load_sprites_from_maze`: clears `self.sprites` and scans
every cell of the maze; the returned list is the new (replacing) sprite
set. -/
def load_sprites_from_maze (maze : List (List Char)) (block_size : ℕ) :
    List Sprite :=
  sprites_in_rows block_size 0 maze

/-- The closure tested by `SpriteManager::remove_sprite_at`'s `position`
search: active and within `tolerance` of `(world_x, world_y)` on both
axes. -/
def sprite_hit (world_x world_y tolerance : ℚ) (s : Sprite) : Bool :=
  s.active && decide (|s.world_x - world_x| < tolerance) &&
    decide (|s.world_y - world_y| < tolerance)

/-- `SpriteManager::remove_sprite_at`: find the first sprite satisfying
`sprite_hit`, set its `active` flag to false and return its type; otherwise
return `None` and leave the sprites untouched.  The result pairs the
returned `Option<SpriteType>` with the updated sprite list. -/
def remove_sprite_at :
    List Sprite → ℚ → ℚ → ℚ → Option SpriteType × List Sprite
  | [], _, _, _ => (none, [])
  | s :: rest, world_x, world_y, tolerance =>
    if sprite_hit world_x world_y tolerance s then
      (some s.sprite_type, { s with active := false } :: rest)
    else
      let r := remove_sprite_at rest world_x world_y tolerance
      (r.1, s :: r.2)

/-- `raylib::Color` (RGBA bytes). -/
structure Color where
  r : ℕ
  g : ℕ
  b : ℕ
  a : ℕ
deriving DecidableEq, Repr

/-- Rust `i32 as u32` (two's-complement reinterpretation). -/
def u32_of_i32 (v : ℤ) : ℕ := (v % 2 ^ 32).toNat

/-- The `resize` step of `SpriteManager::render_sprites`: when the z-buffer
length differs from the framebuffer width, truncate or extend it with
`f32::INFINITY` (modelled by the parameter `inf`). -/
def resize_z_buffer (zbuf : List ℚ) (width : ℕ) (inf : ℚ) : List ℚ :=
  if zbuf.length = width then zbuf
  else zbuf.take width ++ List.replicate (width - zbuf.length) inf

/-- The copy loop of `SpriteManager::render_sprites`: overwrite
`z_buffer[i]` with `wall_distances[i]` for every index present in both. -/
def copy_wall_distances : List ℚ → List ℚ → List ℚ
  | [], _ => []
  | z :: zrest, [] => z :: zrest
  | _ :: zrest, d :: drest => d :: copy_wall_distances zrest drest

/-- The z-buffer `render_sprites` hands to `render_sprite_column`: the prior
buffer resized to the framebuffer width and overwritten with the wall
distances. -/
def build_z_buffer (prior : List ℚ) (width : ℕ) (inf : ℚ)
    (wall_distances : List ℚ) : List ℚ :=
  copy_wall_distances (resize_z_buffer prior width inf) wall_distances

/-- `SpriteManager::render_sprite_column`, abstracted over the sprite's
colour pattern `sprite_color tx ty brightness` (the source's
`get_fallback_sprite_color`, whose value does not enter the depth test) and
over whether `sprite_infos` contains the sprite's type
(`has_sprite_info`).  Returns the list of screen pixels `(x, y)` whose
colour it writes to the framebuffer. -/
def render_sprite_column (fb_width fb_height : ℕ) (z_buffer : List ℚ)
    (has_sprite_info : Bool) (sprite_color : ℚ → ℚ → ℚ → Color)
    (center_x : ℤ) (size : ℕ) (distance : ℚ) : List (ℕ × ℕ) :=
  if has_sprite_info = false then []
  else
    let half_size : ℤ := (size : ℤ) / 2
    let start_x := u32_of_i32 (max (center_x - half_size) 0)
    let end_x := u32_of_i32 (min (center_x + half_size) (fb_width : ℤ))
    let center_y : ℤ := (fb_height : ℤ) / 2
    let start_y := u32_of_i32 (max (center_y - half_size) 0)
    let end_y := u32_of_i32 (min (center_y + half_size) (fb_height : ℤ))
    let distance_factor := max (min (distance / 400) (7 / 10)) 0
    let brightness := 1 - distance_factor * (3 / 10)
    (List.range' start_y (end_y - start_y)).bind fun y =>
      (List.range' start_x (end_x - start_x)).bind fun x =>
        match z_buffer[x]? with
        | none => []
        | some wall_d =>
          if distance < wall_d then
            let tx := ((x - start_x : ℕ) : ℚ) / ((end_x - start_x : ℕ) : ℚ)
            let ty := ((y - start_y : ℕ) : ℚ) / ((end_y - start_y : ℕ) : ℚ)
            let color := sprite_color tx ty brightness
            if 0 < color.a then [(x, y)] else []
          else []

/-! ### Theorems about the ray caster -/

example : determine_wall_side (1/2) (1/2) = WallSide.West := by
  norm_num [determine_wall_side, min_by_first]

example : determine_wall_side (9/10) (1/2) = WallSide.East := by
  norm_num [determine_wall_side, min_by_first]

example : determine_wall_side (1/2) (1/10) = WallSide.North := by
  norm_num [determine_wall_side, min_by_first]

example : determine_wall_side (2/5) (9/10) = WallSide.South := by
  norm_num [determine_wall_side, min_by_first]

/-- C3: wall-side selection is the deterministic function of the normalized
in-cell offsets `(u, v)` that picks the side with the smallest of the four
margins `u`, `1-u`, `v`, `1-v`, ties broken by the fixed iteration order
West, East, North, South; the code's fold (`determine_wall_side`) agrees with
the spec-side nested comparison (`wall_side_spec`) at every input, so the
same `(u, v)` always yields the same side. -/
theorem determine_wall_side_eq_spec (u v : ℚ) :
    determine_wall_side u v = wall_side_spec u v := by
  unfold determine_wall_side wall_side_spec min_by_first
  simp only [List.foldl]
  split_ifs <;> simp_all <;> split_ifs <;> simp_all <;>
    first
      | linarith
      | (split_ifs <;> simp_all <;> try linarith)

lemma castLoop_distance_le (maze : List (List Char)) (mH mW : ℕ)
    (px py ca sa : ℚ) (bs : ℕ) :
    ∀ fuel (d : ℚ),
      ((castLoop maze mH mW px py ca sa bs fuel d).1).distance ≤
        MAX_DISTANCE := by
  intro fuel
  induction fuel with
  | zero =>
    intro d
    simp [castLoop, create_default_intersect]
  | succ n ih =>
    intro d
    simp only [castLoop]
    split_ifs with h1 h2 h3 h4
    · simp [create_default_intersect]
    · simp only [create_wall_intersect]
      exact le_of_not_lt h1
    · simp only [create_wall_intersect]
      exact le_of_not_lt h1
    · exact le_of_not_lt h1
    · exact ih (d + STEP_SIZE)

lemma castLoop_steps_le (maze : List (List Char)) (mH mW : ℕ)
    (px py ca sa : ℚ) (bs : ℕ) :
    ∀ fuel (d : ℚ),
      (castLoop maze mH mW px py ca sa bs fuel d).2 ≤ fuel := by
  intro fuel
  induction fuel with
  | zero =>
    intro d
    simp [castLoop]
  | succ n ih =>
    intro d
    simp only [castLoop]
    split_ifs with h1 h2 h3 h4
    · omega
    · omega
    · omega
    · omega
    · have := ih (d + STEP_SIZE)
      omega

lemma clampQ_nonneg (x : ℚ) : 0 ≤ clampQ x 0 1 := le_max_left 0 _

lemma clampQ_le_one (x : ℚ) : clampQ x 0 1 ≤ 1 :=
  max_le (by norm_num) (min_le_right x 1)

lemma castLoop_texture_in_unit (maze : List (List Char)) (mH mW : ℕ)
    (px py ca sa : ℚ) (bs : ℕ) :
    ∀ fuel (d : ℚ),
      0 ≤ ((castLoop maze mH mW px py ca sa bs fuel d).1).texture_x ∧
      ((castLoop maze mH mW px py ca sa bs fuel d).1).texture_x ≤ 1 ∧
      0 ≤ ((castLoop maze mH mW px py ca sa bs fuel d).1).texture_y ∧
      ((castLoop maze mH mW px py ca sa bs fuel d).1).texture_y ≤ 1 := by
  intro fuel
  induction fuel with
  | zero =>
    intro d
    simp [castLoop, create_default_intersect]
  | succ n ih =>
    intro d
    simp only [castLoop]
    split_ifs with h1 h2 h3 h4
    · simp [create_default_intersect]
    · simp [create_wall_intersect]
    · simp [create_wall_intersect]
    · exact ⟨clampQ_nonneg _, clampQ_le_one _, clampQ_nonneg _, clampQ_le_one _⟩
    · exact ih (d + STEP_SIZE)

/-- C2: for every maze, player position, ray direction and positive cell
size, the ray cast terminates: its march loop runs at most
`MAX_ITERATIONS = 400` iterations, and the returned `Intersect` has a finite
distance ≤ `MAX_DISTANCE = 1000`. -/
theorem cast_ray_textured_terminates (maze : List (List Char))
    (px py ca sa : ℚ) (bs : ℕ) (hbs : 0 < bs) :
    (cast_ray_textured maze px py ca sa bs).distance ≤ MAX_DISTANCE ∧
    (cast_ray_textured_full maze px py ca sa bs).2 ≤ MAX_ITERATIONS := by
  unfold cast_ray_textured cast_ray_textured_full
  by_cases h1 : maze.isEmpty = true
  · rw [if_pos h1]
    exact ⟨le_of_eq rfl, Nat.zero_le _⟩
  · rw [if_neg h1]
    by_cases h2 : ((maze[0]?).map List.length).getD 0 = 0
    · rw [if_pos h2]
      exact ⟨le_of_eq rfl, Nat.zero_le _⟩
    · rw [if_neg h2]
      exact ⟨castLoop_distance_le _ _ _ _ _ _ _ _ _ _,
        castLoop_steps_le _ _ _ _ _ _ _ _ _ _⟩

/-- Witness for C2 at a concrete input: a 1×1 all-wall maze, the player at
(5, 5), ray direction (1, 0), cell size 1. -/
theorem cast_ray_textured_terminates_witness :
    (cast_ray_textured [['#']] 5 5 1 0 1).distance ≤ MAX_DISTANCE ∧
    (cast_ray_textured_full [['#']] 5 5 1 0 1).2 ≤ MAX_ITERATIONS :=
  cast_ray_textured_terminates [['#']] 5 5 1 0 1 (by norm_num)

/-- C4: the texture coordinates of the `Intersect` returned by
`cast_ray_textured` always lie within `[0, 1]` — for wall-cell hits (where
they are clamped), out-of-bounds hits and the max-distance sentinel (where
they are 0) alike. -/
theorem cast_ray_textured_texture_in_unit_interval (maze : List (List Char))
    (px py ca sa : ℚ) (bs : ℕ) (hbs : 0 < bs) :
    0 ≤ (cast_ray_textured maze px py ca sa bs).texture_x ∧
    (cast_ray_textured maze px py ca sa bs).texture_x ≤ 1 ∧
    0 ≤ (cast_ray_textured maze px py ca sa bs).texture_y ∧
    (cast_ray_textured maze px py ca sa bs).texture_y ≤ 1 := by
  unfold cast_ray_textured cast_ray_textured_full
  by_cases h1 : maze.isEmpty = true
  · rw [if_pos h1]
    refine ⟨le_of_eq rfl, ?_, le_of_eq rfl, ?_⟩ <;>
      norm_num [create_default_intersect]
  · rw [if_neg h1]
    by_cases h2 : ((maze[0]?).map List.length).getD 0 = 0
    · rw [if_pos h2]
      refine ⟨le_of_eq rfl, ?_, le_of_eq rfl, ?_⟩ <;>
        norm_num [create_default_intersect]
    · rw [if_neg h2]
      exact castLoop_texture_in_unit _ _ _ _ _ _ _ _ _ _

/-- Witness for C4 at a concrete input: a 1×1 all-wall maze, the player at
(5, 5), ray direction (1, 0), cell size 1. -/
theorem cast_ray_textured_texture_in_unit_interval_witness :
    0 ≤ (cast_ray_textured [['#']] 5 5 1 0 1).texture_x ∧
    (cast_ray_textured [['#']] 5 5 1 0 1).texture_x ≤ 1 ∧
    0 ≤ (cast_ray_textured [['#']] 5 5 1 0 1).texture_y ∧
    (cast_ray_textured [['#']] 5 5 1 0 1).texture_y ≤ 1 :=
  cast_ray_textured_texture_in_unit_interval [['#']] 5 5 1 0 1 (by norm_num)

/-- C5: during the march, if the world point at the current step has a
negative x or y coordinate, or its grid-cell indices fall outside the maze
bounds, the loop of `cast_ray_textured` returns immediately (this very
iteration) with a wall hit at the current distance, whose impact symbol is
`'#'`; the out-of-grid cell is never read, it is treated as solid wall. -/
theorem castLoop_oob_returns_wall (maze : List (List Char)) (mH mW : ℕ)
    (px py ca sa : ℚ) (bs : ℕ) (fuel : ℕ) (d : ℚ)
    (hd : ¬ MAX_DISTANCE < d)
    (hoob : (px + d * ca < 0 ∨ py + d * sa < 0) ∨
      (mH ≤ ratToUsize ((py + d * sa) / (bs : ℚ)) ∨
       mW ≤ ratToUsize ((px + d * ca) / (bs : ℚ)))) :
    castLoop maze mH mW px py ca sa bs (fuel + 1) d =
      (create_wall_intersect d, 1) ∧
    (create_wall_intersect d).impact = '#' := by
  refine ⟨?_, rfl⟩
  simp only [castLoop]
  rw [if_neg hd]
  split_ifs with h1 h2 h3
  · rfl
  · rfl
  all_goals
    exfalso
    rcases hoob with h | h
    · exact h1 h
    · exact h2 h

/-- Witness for C5 at a concrete input: player at (-10, 0) looking along a
zero direction vector, so the very first sampled point has negative x. -/
theorem castLoop_oob_returns_wall_witness :
    castLoop [['#']] 1 1 (-10) 0 0 0 1 (399 + 1) (3/2) =
      (create_wall_intersect (3/2), 1) ∧
    (create_wall_intersect (3/2)).impact = '#' :=
  castLoop_oob_returns_wall [['#']] 1 1 (-10) 0 0 0 1 399 (3/2)
    (by norm_num [MAX_DISTANCE]) (Or.inl (Or.inl (by norm_num)))

/-- C6: if the maze has zero rows, or its first row has zero width, then
`cast_ray_textured` returns the default sentinel `Intersect` (distance
`MAX_DISTANCE`, impact `'#'`) immediately, performing no marching steps. -/
theorem cast_ray_textured_empty_maze_default (maze : List (List Char))
    (px py ca sa : ℚ) (bs : ℕ)
    (h : maze.length = 0 ∨ ∃ row, maze[0]? = some row ∧ row.length = 0) :
    cast_ray_textured_full maze px py ca sa bs =
      (create_default_intersect, 0) ∧
    (create_default_intersect).distance = MAX_DISTANCE ∧
    (create_default_intersect).impact = '#' := by
  refine ⟨?_, rfl, rfl⟩
  unfold cast_ray_textured_full
  rcases h with h | ⟨row, hrow, hlen⟩
  · rw [if_pos]
    exact List.isEmpty_iff_length_eq_zero.mpr h
  · have h0 : ((maze[0]?).map List.length).getD 0 = 0 := by
      rw [hrow]
      simp [hlen]
    by_cases h1 : maze.isEmpty = true
    · rw [if_pos h1]
    · rw [if_neg h1, if_pos h0]

/-- Witness for C6 at a concrete input: the empty maze. -/
theorem cast_ray_textured_empty_maze_default_witness :
    cast_ray_textured_full [] 5 5 1 0 1 = (create_default_intersect, 0) ∧
    (create_default_intersect).distance = MAX_DISTANCE ∧
    (create_default_intersect).impact = '#' :=
  cast_ray_textured_empty_maze_default [] 5 5 1 0 1 (Or.inl rfl)

/-! ### Theorems about maze loading and shading -/

lemma padded_rows_uniform (maze : List (List Char)) (w : ℕ)
    (hm : (maze.map List.length).max? = some w) :
    uniform_row_length
      (maze.map fun row => row ++ List.replicate (w - row.length) ' ') =
      true := by
  have hub : ∀ b ∈ maze.map List.length, b ≤ w :=
    (List.max?_eq_some_iff'.mp hm).2
  have hlen : ∀ row ∈ maze,
      (row ++ List.replicate (w - row.length) ' ').length = w := by
    intro row hr
    have hle : row.length ≤ w := hub _ (List.mem_map_of_mem _ hr)
    simp only [List.length_append, List.length_replicate]
    omega
  unfold uniform_row_length
  rw [List.all_eq_true]
  intro row hrow
  rcases List.mem_map.mp hrow with ⟨r, hr, rfl⟩
  cases maze with
  | nil => simp at hr
  | cons r0 rs =>
    simp only [List.map_cons, List.headD_cons]
    rw [decide_eq_true_eq, hlen _ hr, hlen r0 (List.mem_cons_self r0 rs)]

/-- Amended C7: the maze parsed from a readable file (`load_maze (some
lines)`) always has rows of identical length, because shorter rows are
right-padded with spaces to the longest row's length.  (The claim's other
half — that the built-in default maze substituted on a missing/unreadable
file also has uniform row lengths — is false, see the counterexample.) -/
theorem load_maze_file_uniform_row_length (lines : List String) :
    uniform_row_length (load_maze (some lines)) = true := by
  simp only [load_maze]
  cases hm : ((lines.map String.toList).map List.length).max? with
  | none =>
    have h0 : (lines.map String.toList).map List.length = [] :=
      List.max?_eq_none_iff.mp hm
    have h1 : lines.map String.toList = [] := by simpa using h0
    simp [h1, uniform_row_length]
  | some w => exact padded_rows_uniform _ _ hm

/-- Counterexample to C7 as stated: the built-in default maze returned by
`load_maze` for a missing/unreadable file does not have rows of identical
length (its first row has 16 characters, its fifth row 17). -/
theorem load_maze_default_not_uniform :
    uniform_row_length (load_maze none) = false := by decide

/-- C8: wall brightness from distance attenuation is monotonically
non-increasing in distance: for distances `d1 < d2 ≤ 600` the brightness for
`d1` is ≥ that for `d2`; the factor is `max (1 - 0.7 * min (d/600) 0.8) 0.3`,
floored at the minimum brightness 0.3, hence never zero. -/
theorem calculate_distance_attenuation_antitone (d1 d2 : ℚ)
    (h12 : d1 < d2) (h600 : d2 ≤ 600) :
    calculate_distance_attenuation d2 ≤ calculate_distance_attenuation d1 ∧
    3 / 10 ≤ calculate_distance_attenuation d2 ∧
    0 < calculate_distance_attenuation d2 := by
  simp only [calculate_distance_attenuation]
  refine ⟨?_, le_max_right _ _,
    lt_of_lt_of_le (by norm_num) (le_max_right _ _)⟩
  have hmin : min (d1 / 600) (4 / 5) ≤ min (d2 / 600) (4 / 5) := by
    apply min_le_min _ (le_refl _)
    linarith
  apply max_le_max _ (le_refl _)
  linarith

/-- Witness for C8 at the concrete distances 0 and 600. -/
theorem calculate_distance_attenuation_antitone_witness :
    calculate_distance_attenuation 600 ≤ calculate_distance_attenuation 0 ∧
    3 / 10 ≤ calculate_distance_attenuation 600 ∧
    0 < calculate_distance_attenuation 600 :=
  calculate_distance_attenuation_antitone 0 600 (by norm_num) (by norm_num)

/-! ### Theorems about the sprite manager -/

lemma remove_sprite_at_no_hit (world_x world_y tolerance : ℚ) :
    ∀ sprites : List Sprite,
      (∀ s ∈ sprites, sprite_hit world_x world_y tolerance s = false) →
      remove_sprite_at sprites world_x world_y tolerance = (none, sprites) := by
  intro sprites
  induction sprites with
  | nil => intro _; rfl
  | cons s rest ih =>
    intro h
    have hs : sprite_hit world_x world_y tolerance s = false :=
      h s (List.mem_cons_self s rest)
    simp only [remove_sprite_at, hs, Bool.false_eq_true, if_false]
    rw [ih fun p hp => h p (List.mem_cons_of_mem s hp)]

lemma remove_sprite_at_first_hit (world_x world_y tolerance : ℚ)
    (s : Sprite) (post : List Sprite)
    (hs : sprite_hit world_x world_y tolerance s = true) :
    ∀ pre : List Sprite,
      (∀ p ∈ pre, sprite_hit world_x world_y tolerance p = false) →
      remove_sprite_at (pre ++ s :: post) world_x world_y tolerance =
        (some s.sprite_type, pre ++ { s with active := false } :: post) := by
  intro pre
  induction pre with
  | nil =>
    intro _
    simp only [List.nil_append, remove_sprite_at, hs, if_true]
  | cons p pre' ih =>
    intro h
    have hp : sprite_hit world_x world_y tolerance p = false :=
      h p (List.mem_cons_self p pre')
    simp only [List.cons_append, remove_sprite_at, hp, Bool.false_eq_true,
      if_false, List.append_eq]
    rw [ih fun q hq => h q (List.mem_cons_of_mem p hq)]

/-- C10: `remove_sprite_at` changes at most one sprite.  If no active sprite
lies within `tolerance` of `(world_x, world_y)` on both axes, it returns
`None` and the sprite set is unchanged; otherwise the first such sprite (in
storage order) has only its `active` flag set to `false` (all other fields
kept by the record update), its type is returned, and every sprite before
and after it is unchanged. -/
theorem remove_sprite_at_changes_at_most_one (sprites : List Sprite)
    (world_x world_y tolerance : ℚ) :
    ((∀ s ∈ sprites, sprite_hit world_x world_y tolerance s = false) →
      remove_sprite_at sprites world_x world_y tolerance = (none, sprites)) ∧
    (∀ pre s post, sprites = pre ++ s :: post →
      (∀ p ∈ pre, sprite_hit world_x world_y tolerance p = false) →
      sprite_hit world_x world_y tolerance s = true →
      remove_sprite_at sprites world_x world_y tolerance =
        (some s.sprite_type, pre ++ { s with active := false } :: post)) := by
  constructor
  · exact remove_sprite_at_no_hit world_x world_y tolerance sprites
  · intro pre s post hsplit hpre hs
    rw [hsplit]
    exact remove_sprite_at_first_hit world_x world_y tolerance s post hs
      pre hpre

/-- Witness for C10 at a concrete input: two sprites, the first out of
tolerance, the second within; only the second is deactivated. -/
theorem remove_sprite_at_changes_at_most_one_witness :
    remove_sprite_at
        [Sprite.new SpriteType.KeyGold 50 50,
         Sprite.new SpriteType.TrapSpike 0 0] 0 0 1 =
      (some SpriteType.TrapSpike,
       [Sprite.new SpriteType.KeyGold 50 50,
        { Sprite.new SpriteType.TrapSpike 0 0 with active := false }]) :=
  (remove_sprite_at_changes_at_most_one
      [Sprite.new SpriteType.KeyGold 50 50,
       Sprite.new SpriteType.TrapSpike 0 0] 0 0 1).2
    [Sprite.new SpriteType.KeyGold 50 50]
    (Sprite.new SpriteType.TrapSpike 0 0) [] rfl
    (by
      intro p hp
      rw [List.mem_singleton] at hp
      subst hp
      simp only [sprite_hit, Sprite.new]
      norm_num)
    (by
      simp only [sprite_hit, Sprite.new]
      norm_num)

lemma from_char_symbol (t : SpriteType) :
    SpriteType.from_char t.symbol = some t := by
  cases t <;> rfl

lemma symbol_injective (t1 t2 : SpriteType) (h : t1.symbol = t2.symbol) :
    t1 = t2 := by
  cases t1 <;> cases t2 <;> simp_all [SpriteType.symbol]

lemma from_char_eq_some_iff (c : Char) (t : SpriteType) :
    SpriteType.from_char c = some t ↔ c = t.symbol := by
  constructor
  · intro h
    unfold SpriteType.from_char at h
    split_ifs at h <;>
      first
        | (injection h with h2; subst h2; simp_all [SpriteType.symbol])
        | cases h
  · intro h
    rw [h]
    exact from_char_symbol t

lemma sprites_in_row_countP (bs r : ℕ) (t : SpriteType) :
    ∀ (c0 : ℕ) (row : List Char),
      (sprites_in_row bs r c0 row).countP (fun s => s.sprite_type == t) =
        row.countP (fun c => c == t.symbol) := by
  intro c0 row
  induction row generalizing c0 with
  | nil => rfl
  | cons ch rest ih =>
    simp only [sprites_in_row]
    cases hfc : SpriteType.from_char ch with
    | none =>
      have hne : (ch == t.symbol) = false := by
        rw [beq_eq_false_iff_ne]
        intro hEq
        rw [hEq, from_char_symbol] at hfc
        cases hfc
      rw [List.countP_cons, hne, ih (c0 + 1)]
      simp
    | some t2 =>
      have hch : ch = t2.symbol := (from_char_eq_some_iff ch t2).mp hfc
      rw [List.countP_cons, List.countP_cons, ih (c0 + 1)]
      congr 1
      by_cases ht : t2 = t
      · subst ht
        simp [Sprite.new, hch]
      · have hne : ch ≠ t.symbol := by
          rw [hch]
          intro hEq
          exact ht (symbol_injective t2 t hEq)
        simp [Sprite.new, ht, hne]

lemma sprites_in_rows_countP (bs : ℕ) (t : SpriteType) :
    ∀ (r0 : ℕ) (maze : List (List Char)),
      (sprites_in_rows bs r0 maze).countP (fun s => s.sprite_type == t) =
        maze_count maze t.symbol := by
  intro r0 maze
  induction maze generalizing r0 with
  | nil => rfl
  | cons row rest ih =>
    simp only [sprites_in_rows, List.countP_append, maze_count,
      List.map_cons, List.sum_cons]
    rw [sprites_in_row_countP bs r0 t 0 row, ih (r0 + 1)]
    simp [maze_count, List.count]

lemma length_eq_sum_type_counts (l : List Sprite) :
    l.length =
      l.countP (fun s => s.sprite_type == SpriteType.KeyGold) +
      l.countP (fun s => s.sprite_type == SpriteType.Checkpoint) +
      l.countP (fun s => s.sprite_type == SpriteType.ExitPortal) +
      l.countP (fun s => s.sprite_type == SpriteType.ExtraLife) +
      l.countP (fun s => s.sprite_type == SpriteType.TrapSpike) := by
  induction l with
  | nil => rfl
  | cons s rest ih =>
    simp only [List.length_cons, List.countP_cons]
    cases h : s.sprite_type <;> simp [h] <;> omega

lemma sprites_in_row_mem (bs r : ℕ) :
    ∀ (c0 : ℕ) (row : List Char) (s : Sprite),
      s ∈ sprites_in_row bs r c0 row →
      s.active = true ∧
      s.world_y = (r : ℚ) * (bs : ℚ) + (bs : ℚ) / 2 ∧
      ∃ j : ℕ, row[j]? = some s.sprite_type.symbol ∧
        s.world_x = ((c0 + j : ℕ) : ℚ) * (bs : ℚ) + (bs : ℚ) / 2 := by
  intro c0 row
  induction row generalizing c0 with
  | nil =>
    intro s hs
    simp [sprites_in_row] at hs
  | cons ch rest ih =>
    intro s hs
    simp only [sprites_in_row] at hs
    cases hfc : SpriteType.from_char ch with
    | none =>
      rw [hfc] at hs
      obtain ⟨ha, hy, j, hj, hx⟩ := ih (c0 + 1) s hs
      refine ⟨ha, hy, j + 1, by simpa using hj, ?_⟩
      rw [hx]
      push_cast
      ring
    | some t2 =>
      rw [hfc] at hs
      rcases List.mem_cons.mp hs with rfl | hs'
      · have hch : ch = t2.symbol := (from_char_eq_some_iff ch t2).mp hfc
        refine ⟨rfl, rfl, 0, ?_, ?_⟩
        · simp [Sprite.new, hch]
        · simp [Sprite.new]
      · obtain ⟨ha, hy, j, hj, hx⟩ := ih (c0 + 1) s hs'
        refine ⟨ha, hy, j + 1, by simpa using hj, ?_⟩
        rw [hx]
        push_cast
        ring

lemma sprites_in_rows_mem (bs : ℕ) :
    ∀ (r0 : ℕ) (maze : List (List Char)) (s : Sprite),
      s ∈ sprites_in_rows bs r0 maze →
      s.active = true ∧
      ∃ (i j : ℕ) (row : List Char), maze[i]? = some row ∧
        row[j]? = some s.sprite_type.symbol ∧
        s.world_x = (j : ℚ) * (bs : ℚ) + (bs : ℚ) / 2 ∧
        s.world_y = ((r0 + i : ℕ) : ℚ) * (bs : ℚ) + (bs : ℚ) / 2 := by
  intro r0 maze
  induction maze generalizing r0 with
  | nil =>
    intro s hs
    simp [sprites_in_rows] at hs
  | cons row rest ih =>
    intro s hs
    simp only [sprites_in_rows] at hs
    rcases List.mem_append.mp hs with h | h
    · obtain ⟨ha, hy, j, hj, hx⟩ := sprites_in_row_mem bs r0 0 row s h
      exact ⟨ha, 0, j, row, by simp, hj, by simpa using hx, by simpa using hy⟩
    · obtain ⟨ha, i, j, row', hi, hj, hx, hy⟩ := ih (r0 + 1) s h
      refine ⟨ha, i + 1, j, row', by simpa using hi, hj, hx, ?_⟩
      rw [hy]
      push_cast
      ring

/-- C9: loading sprites from a maze that contains exactly one of each of the
5 interactive symbols (`k`, `c`, `e`, `l`, `t`) yields (as the fully
replacing sprite set) exactly 5 active sprites, one per symbol, each
positioned at its cell's world centre
`(col*cellSize + cellSize/2, row*cellSize + cellSize/2)`. -/
theorem load_sprites_from_maze_one_of_each (maze : List (List Char))
    (bs : ℕ)
    (hk : maze_count maze 'k' = 1) (hc : maze_count maze 'c' = 1)
    (he : maze_count maze 'e' = 1) (hl : maze_count maze 'l' = 1)
    (ht : maze_count maze 't' = 1) :
    (load_sprites_from_maze maze bs).length = 5 ∧
    (∀ s ∈ load_sprites_from_maze maze bs, s.active = true) ∧
    (∀ t : SpriteType,
      (load_sprites_from_maze maze bs).countP
        (fun s => s.sprite_type == t) = 1) ∧
    (∀ s ∈ load_sprites_from_maze maze bs, ∃ (i j : ℕ) (row : List Char),
      maze[i]? = some row ∧ row[j]? = some s.sprite_type.symbol ∧
      s.world_x = (j : ℚ) * (bs : ℚ) + (bs : ℚ) / 2 ∧
      s.world_y = (i : ℚ) * (bs : ℚ) + (bs : ℚ) / 2) := by
  have hc5 : ∀ t : SpriteType,
      (load_sprites_from_maze maze bs).countP
        (fun s => s.sprite_type == t) = 1 := by
    intro t
    rw [show load_sprites_from_maze maze bs = sprites_in_rows bs 0 maze
      from rfl]
    rw [sprites_in_rows_countP bs t 0 maze]
    cases t
    · exact hk
    · exact hc
    · exact he
    · exact hl
    · exact ht
  refine ⟨?_, ?_, hc5, ?_⟩
  · rw [length_eq_sum_type_counts, hc5 SpriteType.KeyGold,
      hc5 SpriteType.Checkpoint, hc5 SpriteType.ExitPortal,
      hc5 SpriteType.ExtraLife, hc5 SpriteType.TrapSpike]
  · intro s hs
    exact (sprites_in_rows_mem bs 0 maze s hs).1
  · intro s hs
    obtain ⟨ha, i, j, row, hi, hj, hx, hy⟩ := sprites_in_rows_mem bs 0 maze s hs
    exact ⟨i, j, row, hi, hj, hx, by simpa using hy⟩

/-- Witness for C9 at a concrete input: a 2×3 maze holding one of each
interactive symbol, cell size 10. -/
theorem load_sprites_from_maze_one_of_each_witness :
    (load_sprites_from_maze [['k', 'c', 'e'], ['l', 't', ' ']] 10).length =
      5 :=
  (load_sprites_from_maze_one_of_each [['k', 'c', 'e'], ['l', 't', ' ']] 10
    (by decide) (by decide) (by decide) (by decide) (by decide)).1

lemma copy_wall_distances_eq (zbuf wd : List ℚ)
    (h : zbuf.length = wd.length) : copy_wall_distances zbuf wd = wd := by
  induction zbuf generalizing wd with
  | nil =>
    cases wd with
    | nil => rfl
    | cons d drest => simp at h
  | cons z zrest ih =>
    cases wd with
    | nil => simp at h
    | cons d drest =>
      simp only [copy_wall_distances]
      rw [ih drest (by simpa using h)]

lemma resize_z_buffer_length (zbuf : List ℚ) (width : ℕ) (inf : ℚ) :
    (resize_z_buffer zbuf width inf).length = width := by
  unfold resize_z_buffer
  split_ifs with h
  · exact h
  · simp only [List.length_append, List.length_take, List.length_replicate]
    omega

lemma build_z_buffer_eq (prior : List ℚ) (width : ℕ) (inf : ℚ)
    (wd : List ℚ) (h : wd.length = width) :
    build_z_buffer prior width inf wd = wd := by
  unfold build_z_buffer
  exact copy_wall_distances_eq _ _ (by rw [resize_z_buffer_length, h])

/-- C1: the sprite compositor paints a pixel at screen column `x` only when
the sprite's distance to the player is strictly less than the wall distance
recorded in the depth buffer for that column — the z-buffer that
`render_sprites` builds by copying the per-column wall distances (one entry
per screen column).  Equivalently, no sprite pixel is ever painted at a
column whose depth-buffer entry is ≤ the sprite's distance. -/
theorem render_sprite_column_occlusion (fb_width fb_height : ℕ)
    (prior : List ℚ) (inf : ℚ) (wall_distances : List ℚ)
    (has_sprite_info : Bool) (sprite_color : ℚ → ℚ → ℚ → Color)
    (center_x : ℤ) (size : ℕ) (distance : ℚ) (x y : ℕ)
    (hlen : wall_distances.length = fb_width)
    (hmem : (x, y) ∈ render_sprite_column fb_width fb_height
      (build_z_buffer prior fb_width inf wall_distances)
      has_sprite_info sprite_color center_x size distance) :
    ∃ wall_d, wall_distances[x]? = some wall_d ∧ distance < wall_d := by
  rw [build_z_buffer_eq prior fb_width inf wall_distances hlen] at hmem
  by_cases hinfo : has_sprite_info = false
  · simp only [render_sprite_column, hinfo, if_true] at hmem
    simp at hmem
  · simp only [render_sprite_column, hinfo, Bool.true_eq_false,
      Bool.false_eq_true, if_false, List.mem_bind] at hmem
    obtain ⟨y1, hy1, x1, hx1, hpix⟩ := hmem
    cases hwd : wall_distances[x1]? with
    | none =>
      rw [hwd] at hpix
      simp at hpix
    | some wd =>
      rw [hwd] at hpix
      simp only [] at hpix
      split_ifs at hpix with hlt ha
      · rw [List.mem_singleton] at hpix
        have hx : x = x1 := congrArg Prod.fst hpix
        subst hx
        exact ⟨wd, hwd, hlt⟩
      · simp at hpix
      · simp at hpix

/-- Witness for C1 at a concrete input: 2×2 framebuffer, wall distances 10
at both columns, a sprite at distance 1 of size 4 centred at column 1, a
fully opaque colour pattern; the pixel (0, 0) is painted and the depth test
holds there. -/
theorem render_sprite_column_occlusion_witness :
    ∃ wall_d, ([(10 : ℚ), 10])[0]? = some wall_d ∧ (1 : ℚ) < wall_d :=
  render_sprite_column_occlusion 2 2 [] 0 [10, 10] true
    (fun _ _ _ => { r := 255, g := 255, b := 255, a := 255 }) 1 4 1 0 0
    rfl
    (by
      simp [render_sprite_column, build_z_buffer, resize_z_buffer,
        copy_wall_distances, u32_of_i32, List.range'])

end Raycast
